import Mathlib

set_option maxHeartbeats 1000000

namespace CryptoBot

/-- A raw follower-history point as persisted in a subject's history JSON file
(`data/<username>_history.json`): unix timestamp and follower count. -/
structure RawPoint where
  timestamp : Int
  followers : Nat
deriving Repr, DecidableEq

/-- The nine window percentage changes computed by
`TwitterScraper._calculate_growth_metrics`. -/
structure GrowthMetrics where
  change_5m : ℚ
  change_15m : ℚ
  change_30m : ℚ
  change_1h : ℚ
  change_4h : ℚ
  change_6h : ℚ
  change_12h : ℚ
  change_18h : ℚ
  change_24h : ℚ
deriving Repr, DecidableEq

/-- The all-zero growth metrics returned for an empty history. -/
def GrowthMetrics.zero : GrowthMetrics := ⟨0, 0, 0, 0, 0, 0, 0, 0, 0⟩

/-- Result of `TwitterScraper._calculate_follower_growth`: the nine window
metrics plus the derived `growth_rate` field. -/
structure FollowerGrowth where
  metrics : GrowthMetrics
  growth_rate : ℚ
deriving Repr, DecidableEq

namespace TwitterScraper

/-- Reference-point search of `_calculate_growth_metrics`: walk the history in
reverse order and take the first point whose timestamp is at or before the
cutoff (`for point in reversed(history): if point['timestamp'] <= interval_time`). -/
def findIntervalPoint (history : List RawPoint) (cutoff : Int) : Option RawPoint :=
  history.reverse.find? (fun p => decide (p.timestamp ≤ cutoff))

/-- One window of `_calculate_growth_metrics`: percent change from the
reference point to the current follower count, 0 when there is no reference
point or its follower count is not positive. -/
def intervalChange (currentFollowers : Nat) (currentTime : Int)
    (history : List RawPoint) (seconds : Int) : ℚ :=
  match findIntervalPoint history (currentTime - seconds) with
  | some p =>
      if p.followers > 0 then
        (((currentFollowers : ℚ) - (p.followers : ℚ)) / (p.followers : ℚ)) * 100
      else 0
  | none => 0

/-- Embedding of `TwitterScraper._calculate_growth_metrics`: current count is
the last point's follower count, and each of the nine intervals is computed by
`intervalChange`; an empty history yields all zeros. -/
def calculate_growth_metrics (currentTime : Int) (history : List RawPoint) :
    GrowthMetrics :=
  match history.getLast? with
  | none => GrowthMetrics.zero
  | some lastPoint =>
      let c := lastPoint.followers
      { change_5m := intervalChange c currentTime history (5 * 60)
        change_15m := intervalChange c currentTime history (15 * 60)
        change_30m := intervalChange c currentTime history (30 * 60)
        change_1h := intervalChange c currentTime history (60 * 60)
        change_4h := intervalChange c currentTime history (4 * 60 * 60)
        change_6h := intervalChange c currentTime history (6 * 60 * 60)
        change_12h := intervalChange c currentTime history (12 * 60 * 60)
        change_18h := intervalChange c currentTime history (18 * 60 * 60)
        change_24h := intervalChange c currentTime history (24 * 60 * 60) }

/-- Timestamp sort used by `_calculate_follower_growth`, `detect_follower_spike`
and `save_follower_data` (`sorted(history, key=lambda x: x['timestamp'])`). -/
def sortByTimestamp (history : List RawPoint) : List RawPoint :=
  history.mergeSort (fun a b => decide (a.timestamp ≤ b.timestamp))

/-- Embedding of `TwitterScraper._calculate_follower_growth`: sort the stored
history, compute the nine metrics, then set `growth_rate` to `change_1h` when
that value is nonzero and to 0 otherwise. -/
def calculate_follower_growth (currentTime : Int) (history : List RawPoint) :
    FollowerGrowth :=
  if history.isEmpty then ⟨GrowthMetrics.zero, 0⟩
  else
    let data_points := sortByTimestamp history
    let gm := calculate_growth_metrics currentTime data_points
    ⟨gm, if gm.change_1h ≠ 0 then gm.change_1h else 0⟩

/-- Reference-point scan of `detect_follower_spike`: walk the sorted points in
order, remembering the last one with timestamp at or before `hour_ago`, and
stop at the first later point (the loop's `else: break`). -/
def findOldPoint (hourAgo : Int) : List RawPoint → Option RawPoint
  | [] => none
  | p :: rest =>
      if p.timestamp ≤ hourAgo then
        match findOldPoint hourAgo rest with
        | some q => some q
        | none => some p
      else none

/-- The scraper's spike threshold (`SPIKE_THRESHOLD_PERCENT = 5`). -/
def SPIKE_THRESHOLD_PERCENT : ℚ := 5

/-- Embedding of `TwitterScraper.detect_follower_spike`: pick the last stored
point at least one hour old, guard against a missing or zero reference, and
flag a spike when the percent change reaches the threshold. -/
def detect_follower_spike (currentTime : Int) (history : List RawPoint)
    (current_followers : Nat) : Bool × ℚ :=
  if history.isEmpty then (false, 0)
  else
    let data_points := sortByTimestamp history
    let hour_ago := currentTime - 3600
    match findOldPoint hour_ago data_points with
    | none => (false, 0)
    | some old_point =>
        if old_point.followers = 0 then (false, 0)
        else
          let percent_change :=
            (((current_followers : ℚ) - (old_point.followers : ℚ)) /
              (old_point.followers : ℚ)) * 100
          (decide (percent_change ≥ SPIKE_THRESHOLD_PERCENT), percent_change)

/-- Embedding of `TwitterScraper.save_follower_data` over a store mapping each
username to its persisted history file: append the new point, prune points
older than 24 hours, sort by timestamp, and persist; other usernames' files
are untouched. -/
def save_follower_data (currentTime : Int) (username : String)
    (followers_count : Nat) (store : String → List RawPoint) :
    String → List RawPoint :=
  fun u =>
    if u = username then
      let history := store username ++ [⟨currentTime, followers_count⟩]
      let pruned :=
        history.filter (fun p => decide (p.timestamp > currentTime - 24 * 60 * 60))
      pruned.mergeSort (fun a b => decide (a.timestamp ≤ b.timestamp))
    else store u

/-- Python `int()` truncation toward zero, on a real value. -/
noncomputable def pyTrunc (x : ℝ) : ℤ := if 0 ≤ x then ⌊x⌋ else ⌈x⌉

/-- Engagement multiplier of the live scoring variant, clamped to 0.5..2.0. -/
noncomputable def engagement_multiplier_live (engagement_rate : ℝ) : ℝ :=
  max 0.5 (min 2.0 (1 + engagement_rate * 100))

/-- Embedding of `TwitterScraper._calculate_twitter_score` (the live-collection
scoring variant): 0 for non-positive followers, otherwise a log-based follower
score times the clamped engagement multiplier and the verification bonus,
truncated and normalized to the 0..1000 range. -/
noncomputable def calculate_twitter_score_live (followers : Int)
    (engagement_rate : ℝ) (verified : Bool) : ℤ :=
  if followers ≤ 0 then 0
  else
    let follower_score : ℝ := 1000 * (1 + Real.logb 10 (followers : ℝ)) / 7
    let engagement_multiplier := engagement_multiplier_live engagement_rate
    let verification_bonus : ℝ := if verified then 1.2 else 1.0
    let score := follower_score * engagement_multiplier * verification_bonus
    min 1000 (max 0 (pyTrunc score))

end TwitterScraper

namespace App

/-- The five growth-status labels produced by `determine_growth_status`
(source strings carry emoji; the label identity is what matters). -/
inductive GrowthStatus where
  | spiking
  | fastGrowth
  | growing
  | declining
  | stable
deriving Repr, DecidableEq

/-- Embedding of `app.determine_growth_status`: ordered first-match-wins
threshold cascade over the short-window growth values. -/
def determine_growth_status (m : GrowthMetrics) : GrowthStatus :=
  if m.change_5m ≥ 2 ∨ m.change_15m ≥ 5 ∨ m.change_30m ≥ 8 ∨ m.change_1h ≥ 10 then
    GrowthStatus.spiking
  else if m.change_1h ≥ 5 then GrowthStatus.fastGrowth
  else if m.change_1h > 0 then GrowthStatus.growing
  else if m.change_1h < 0 then GrowthStatus.declining
  else GrowthStatus.stable

/-- Python `round(x, 1)`: round to one decimal place. -/
noncomputable def pyRound1 (x : ℝ) : ℝ := ((round (x * 10) : ℤ) : ℝ) / 10

/-- Base score of `app.calculate_twitter_score`: `log10(max(followers, 1)) * 10`. -/
noncomputable def base_score (followers : Int) : ℝ :=
  Real.logb 10 ((max followers 1 : Int) : ℝ) * 10

/-- Engagement multiplier of `app.calculate_twitter_score`, clamped to 0.5..1.5. -/
noncomputable def engagement_multiplier (engagement_rate : ℝ) : ℝ :=
  max 0.5 (min 1.5 (1 + engagement_rate * 100))

/-- Growth multiplier of `app.calculate_twitter_score`, clamped to 1.0..2.0. -/
noncomputable def growth_multiplier (growth_1h growth_24h : ℝ) : ℝ :=
  max 1.0 (min 2.0 (1 + max growth_1h 0 / 100 + max growth_24h 0 / 200))

/-- Verification bonus of `app.calculate_twitter_score`. -/
noncomputable def verified_bonus (verified : Bool) : ℝ :=
  if verified then 1.2 else 1.0

/-- Embedding of `app.calculate_twitter_score` (the primary scoring formula). -/
noncomputable def calculate_twitter_score (followers : Int)
    (engagement_rate growth_1h growth_24h : ℝ) (verified : Bool) : ℝ :=
  pyRound1 (base_score followers * engagement_multiplier engagement_rate *
    growth_multiplier growth_1h growth_24h * verified_bonus verified)

/-- The fields of one subject's scraped profile record that the leaderboard
processing reads (`twitter_data[username]` in `app.py`). -/
structure TwitterData where
  followers_count : Int
  engagement_rate : ℝ
  verified : Bool
  bio : String
  growth_metrics : GrowthMetrics

/-- One subject's market record (price, 24h change, market-cap proxy). -/
structure MarketInfo where
  price : ℝ
  price_change_24h : ℝ
  market_cap : ℝ

/-- The all-zero market record used when a subject has no market mapping. -/
def MarketInfo.zero : MarketInfo := ⟨0, 0, 0⟩

/-- One leaderboard entry as assembled by `app.process_leaderboard_data`. -/
structure Entry where
  username : String
  bio : String
  verified : Bool
  followers_count : Int
  market_cap : ℝ
  price : ℝ
  price_change_24h : ℝ
  growth_metrics : GrowthMetrics
  growth_status : GrowthStatus
  engagement_rate : ℝ
  twitter_score : ℝ

/-- Assembly of a single leaderboard entry from profile and market data. -/
noncomputable def mkEntry (username : String) (d : TwitterData) (mi : MarketInfo) :
    Entry :=
  { username := username
    bio := d.bio
    verified := d.verified
    followers_count := d.followers_count
    market_cap := mi.market_cap
    price := mi.price
    price_change_24h := mi.price_change_24h
    growth_metrics := d.growth_metrics
    growth_status := determine_growth_status d.growth_metrics
    engagement_rate := d.engagement_rate
    twitter_score := calculate_twitter_score d.followers_count d.engagement_rate
      (d.growth_metrics.change_1h : ℝ) (d.growth_metrics.change_24h : ℝ) d.verified }

/-- The unsorted entry list built by `app.process_leaderboard_data` before its
final sort: one entry per subject present in the profile data, with market
data defaulting to zeros when absent. -/
noncomputable def leaderboard_entries (twitter_data : List (String × TwitterData))
    (market_data : List (String × MarketInfo)) : List Entry :=
  twitter_data.map (fun p =>
    let mi := match market_data.find? (fun q => q.1 = p.1) with
      | some q => q.2
      | none => MarketInfo.zero
    mkEntry p.1 p.2 mi)

/-- Embedding of `app.process_leaderboard_data`: build the entries, then sort
by twitter score, descending (`sort(key=..., reverse=True)`). -/
noncomputable def process_leaderboard_data (twitter_data : List (String × TwitterData))
    (market_data : List (String × MarketInfo)) : List Entry :=
  (leaderboard_entries twitter_data market_data).mergeSort
    (fun a b => decide (b.twitter_score ≤ a.twitter_score))

/-- Embedding of `TwitterScraper.get_twitter_data`: one profile fetch per
username, keeping only the successful ones (`if stats: twitter_data[u] = stats`). -/
def get_twitter_data (usernames : List String)
    (fetchStats : String → Option TwitterData) : List (String × TwitterData) :=
  usernames.filterMap (fun u => (fetchStats u).map (fun s => (u, s)))

/-- Embedding of `TwitterScraper.get_market_data`: every token receives a
record; an unmapped token or a failed market fetch yields the all-zero record
rather than being dropped. -/
def get_market_data (tokens : List String)
    (fetchMarket : String → Option MarketInfo) : List (String × MarketInfo) :=
  tokens.map (fun t =>
    (t, match fetchMarket t with
        | some mi => mi
        | none => MarketInfo.zero))

/-- The publish decision of one `app.update_leaderboard` cycle: the leaderboard
is recomputed and swapped in only when both dictionaries are non-empty
(`if twitter_data and market_data:`); otherwise nothing is published. -/
noncomputable def update_leaderboard_cycle (twitter_data : List (String × TwitterData))
    (market_data : List (String × MarketInfo)) : Option (List Entry) :=
  if !twitter_data.isEmpty && !market_data.isEmpty then
    some (process_leaderboard_data twitter_data market_data)
  else none

/-- The per-token record assembled by `TwitterScraper.generate_leaderboard`
(the live-collection path), restricted to the fields its sort key reads. -/
structure TokenData where
  token : String
  is_spiking : Bool
  pct_change_1h : ℚ
  twitter_score : ℤ
deriving Repr, DecidableEq

/-- The sort key of the live-collection path:
`(is_spiking, pct_change_1h, twitter_score)`. -/
def tokenKey (d : TokenData) : Bool × ℚ × ℤ :=
  (d.is_spiking, d.pct_change_1h, d.twitter_score)

/-- Python's lexicographic order on the live sort-key tuple
(`False < True` for the boolean component). -/
def tupleLe (x y : Bool × ℚ × ℤ) : Prop :=
  x.1 < y.1 ∨ (x.1 = y.1 ∧ (x.2.1 < y.2.1 ∨ (x.2.1 = y.2.1 ∧ x.2.2 ≤ y.2.2)))

instance (x y : Bool × ℚ × ℤ) : Decidable (tupleLe x y) := by
  unfold tupleLe; infer_instance

/-- Embedding of the pure tail of `TwitterScraper.generate_leaderboard`: drop
the failed scrapes, then sort descending by the key tuple (`reverse=True`). -/
def generate_leaderboard (scraped_data : List (Option TokenData)) : List TokenData :=
  (scraped_data.filterMap id).mergeSort
    (fun a b => decide (tupleLe (tokenKey b) (tokenKey a)))

end App

namespace DB

/-- One row of the `users` table. -/
structure UserRow where
  id : Nat
  username : String
  bio : String
  location : String
  verified : Bool
  created_at : String
deriving Repr, DecidableEq

/-- One row of the `metrics` table. -/
structure MetricRow where
  id : Nat
  user_id : Nat
  timestamp : String
  followers_count : Int
  following_count : Int
  tweets_count : Int
  engagement_rate : ℚ
  twitter_score : Int
deriving Repr, DecidableEq

/-- One row of the `engagement_details` table. -/
structure EngagementRow where
  metric_id : Nat
  total_engagement : ℚ
  tweets_analyzed : Int
deriving Repr, DecidableEq

/-- The optional engagement-breakdown record of a stats dictionary. -/
structure EngagementDetails where
  total_engagement : ℚ
  tweets_analyzed : Int
deriving Repr, DecidableEq

/-- A stats dictionary as consumed by `save_twitter_stats`; an empty username
models the falsy/missing username the function rejects. -/
structure Stats where
  username : String
  bio : String
  location : String
  verified : Bool
  created_at : String
  followers_count : Int
  following_count : Int
  tweets_count : Int
  engagement_rate : ℚ
  twitter_score : Int
  engagement_details : Option EngagementDetails
deriving Repr, DecidableEq

/-- The SQLite database state: the three tables plus the autoincrement
counters for `users.id` and `metrics.id`. -/
structure DBState where
  users : List UserRow
  metrics : List MetricRow
  engagement_details : List EngagementRow
  next_user_id : Nat
  next_metric_id : Nat
deriving Repr, DecidableEq

/-- The usernames column of the `users` table. -/
def usernames (db : DBState) : List String := db.users.map (fun u => u.username)

/-- Embedding of `database.save_twitter_stats`: validate the username, upsert
the user row (update bio/location/verified/created_at when the username exists,
insert a fresh row otherwise), always insert one new metrics row stamped with
the current time, and insert an engagement-details row when present; a
validation failure rolls back, leaving the state unchanged, and returns false. -/
def save_twitter_stats (now : String) (stats : Stats) (db : DBState) :
    Bool × DBState :=
  if stats.username = "" then (false, db)
  else
    let step : Nat × List UserRow × Nat :=
      match db.users.find? (fun u => u.username = stats.username) with
      | some u =>
          (u.id,
           db.users.map (fun v =>
             if v.id = u.id then
               { v with bio := stats.bio, location := stats.location,
                        verified := stats.verified, created_at := stats.created_at }
             else v),
           db.next_user_id)
      | none =>
          (db.next_user_id,
           db.users ++ [⟨db.next_user_id, stats.username, stats.bio, stats.location,
             stats.verified, stats.created_at⟩],
           db.next_user_id + 1)
    let metric : MetricRow :=
      ⟨db.next_metric_id, step.1, now, stats.followers_count, stats.following_count,
        stats.tweets_count, stats.engagement_rate, stats.twitter_score⟩
    let eng :=
      match stats.engagement_details with
      | some ed =>
          db.engagement_details ++ [⟨db.next_metric_id, ed.total_engagement,
            ed.tweets_analyzed⟩]
      | none => db.engagement_details
    (true, ⟨step.2.1, db.metrics ++ [metric], eng, step.2.2, db.next_metric_id + 1⟩)

/-- The two accepted top-level shapes of a historical snapshot file — a bare
list of entries, or an object wrapping the list under a data key — plus any
other shape, which yields nothing to import. -/
inductive JsonData where
  | list (entries : List Stats)
  | wrapped (entries : List Stats)
  | other
deriving Repr, DecidableEq

/-- Shape handling of `import_existing_json_data`. -/
def extract_stats_list : JsonData → List Stats
  | JsonData.list es => es
  | JsonData.wrapped es => es
  | JsonData.other => []

/-- The `stats_copy` normalization of `import_existing_json_data`: default the
engagement breakdown when it is missing. -/
def normalize_stats (s : Stats) : Stats :=
  { s with engagement_details := some (s.engagement_details.getD ⟨0, 0⟩) }

/-- Embedding of the per-file loop of `database.import_existing_json_data`:
skip entries without a username, normalize the rest and save each one. -/
def import_file (now : String) (file : JsonData) (db : DBState) : DBState :=
  (extract_stats_list file).foldl
    (fun d s =>
      if s.username = "" then d
      else (save_twitter_stats now (normalize_stats s) d).2) db

end DB

/-! ### Specification-side definitions

These follow the wording of the specification (reference point = the latest
stored point with timestamp at or before the cutoff) and are compared against
the code embeddings above. -/

/-- The latest point of a timestamp-sorted history whose timestamp is at or
before the cutoff: the last element of the filtered history. -/
def latestAtOrBefore (history : List RawPoint) (cutoff : Int) : Option RawPoint :=
  (history.filter (fun p => decide (p.timestamp ≤ cutoff))).getLast?

/-- One growth window as the specification words it: percent change from the
latest point at or before `now - window` to the most recent point's follower
count, 0 when no reference exists or its follower count is zero. -/
def specWindowChange (currentTime : Int) (history : List RawPoint)
    (window : Int) : ℚ :=
  match history.getLast?, latestAtOrBefore history (currentTime - window) with
  | some cur, some ref =>
      if ref.followers = 0 then 0
      else (((cur.followers : ℚ) - (ref.followers : ℚ)) / (ref.followers : ℚ)) * 100
  | _, _ => 0

/-- The nine-window growth metrics as the specification words them. -/
def specGrowthMetrics (currentTime : Int) (history : List RawPoint) : GrowthMetrics :=
  { change_5m := specWindowChange currentTime history (5 * 60)
    change_15m := specWindowChange currentTime history (15 * 60)
    change_30m := specWindowChange currentTime history (30 * 60)
    change_1h := specWindowChange currentTime history (60 * 60)
    change_4h := specWindowChange currentTime history (4 * 60 * 60)
    change_6h := specWindowChange currentTime history (6 * 60 * 60)
    change_12h := specWindowChange currentTime history (12 * 60 * 60)
    change_18h := specWindowChange currentTime history (18 * 60 * 60)
    change_24h := specWindowChange currentTime history (24 * 60 * 60) }

/-- The spike detector as the specification words it: reference point is the
last stored point with timestamp at or before `now - 3600`; (false, 0) when it
is missing or has zero followers; otherwise the percent change, spiking when
it reaches 5 percent. -/
def specDetectSpike (currentTime : Int) (history : List RawPoint)
    (current_followers : Nat) : Bool × ℚ :=
  match latestAtOrBefore (TwitterScraper.sortByTimestamp history) (currentTime - 3600) with
  | none => (false, 0)
  | some ref =>
      if ref.followers = 0 then (false, 0)
      else
        let pc := (((current_followers : ℚ) - (ref.followers : ℚ)) /
          (ref.followers : ℚ)) * 100
        (decide (pc ≥ 5), pc)

/-- Number of importable entries of a snapshot file: those with a username. -/
def DB.validCount (file : DB.JsonData) : Nat :=
  (DB.extract_stats_list file).countP (fun s => decide (s.username ≠ ""))

/-- A concrete snapshot entry used to exhibit the double-import behaviour. -/
def DB.sampleStats : DB.Stats :=
  ⟨"alice", "crypto fan", "earth", false, "2024-01-01", 100, 50, 10, 0, 25, none⟩

/-- A concrete one-entry snapshot file in the bare-list shape. -/
def DB.sampleFile : DB.JsonData := DB.JsonData.list [DB.sampleStats]

/-- The empty database state produced by `init_db`. -/
def DB.emptyDB : DB.DBState := ⟨[], [], [], 1, 1⟩

/-- The entry loop of `import_existing_json_data`, abstracted over the already
extracted entry list (so that `DB.import_file now file db` unfolds to
`DB.import_entries now (DB.extract_stats_list file) db`). -/
def DB.import_entries (now : String) (es : List DB.Stats) (db : DB.DBState) :
    DB.DBState :=
  es.foldl
    (fun d s =>
      if s.username = "" then d
      else (DB.save_twitter_stats now (DB.normalize_stats s) d).2) db

/-! ### General list helpers -/

theorem find_eq_head_filter {α : Type*} (p : α → Bool) (l : List α) :
    l.find? p = (l.filter p).head? := by
  induction l with
  | nil => rfl
  | cons a l ih =>
    rw [List.find?_cons, List.filter_cons]
    cases h : p a
    · rw [if_neg (by simp)]
      exact ih
    · simp

theorem find_reverse_eq_getLast_filter {α : Type*} (p : α → Bool) (l : List α) :
    l.reverse.find? p = (l.filter p).getLast? := by
  rw [find_eq_head_filter, List.filter_reverse, List.head?_reverse]

theorem byKey_trans {α κ : Type*} [LinearOrder κ] (k : α → κ) :
    ∀ a b c : α, decide (k a ≤ k b) = true → decide (k b ≤ k c) = true →
      decide (k a ≤ k c) = true := by
  intro a b c hab hbc
  simp only [decide_eq_true_eq] at *
  exact le_trans hab hbc

theorem byKey_total {α κ : Type*} [LinearOrder κ] (k : α → κ) :
    ∀ a b : α, (decide (k a ≤ k b) || decide (k b ≤ k a)) = true := by
  intro a b
  simpa using le_total (k a) (k b)

theorem pairwise_mergeSort_byKey {α κ : Type*} [LinearOrder κ] (k : α → κ)
    (l : List α) :
    (l.mergeSort (fun a b => decide (k a ≤ k b))).Pairwise
      (fun a b => k a ≤ k b) := by
  have h := @List.sorted_mergeSort α (fun a b => decide (k a ≤ k b))
    (byKey_trans k) (byKey_total k) l
  exact h.imp (fun hab => of_decide_eq_true hab)

theorem byKeyDesc_trans {α κ : Type*} [LinearOrder κ] (k : α → κ) :
    ∀ a b c : α, decide (k b ≤ k a) = true → decide (k c ≤ k b) = true →
      decide (k c ≤ k a) = true := by
  intro a b c hab hbc
  simp only [decide_eq_true_eq] at *
  exact le_trans hbc hab

theorem byKeyDesc_total {α κ : Type*} [LinearOrder κ] (k : α → κ) :
    ∀ a b : α, (decide (k b ≤ k a) || decide (k a ≤ k b)) = true := by
  intro a b
  simpa using (le_total (k b) (k a)).imp id id

theorem pairwise_mergeSort_byKeyDesc {α κ : Type*} [LinearOrder κ] (k : α → κ)
    (l : List α) :
    (l.mergeSort (fun a b => decide (k b ≤ k a))).Pairwise
      (fun a b => k b ≤ k a) := by
  have h := @List.sorted_mergeSort α (fun a b => decide (k b ≤ k a))
    (byKeyDesc_trans k) (byKeyDesc_total k) l
  exact h.imp (fun hab => of_decide_eq_true hab)

/-! ### Growth metrics engine (C1) -/

theorem findIntervalPoint_eq_latest (history : List RawPoint) (cutoff : Int) :
    TwitterScraper.findIntervalPoint history cutoff = latestAtOrBefore history cutoff :=
  find_reverse_eq_getLast_filter _ _

theorem intervalChange_eq_spec (t w : Int) (history : List RawPoint)
    (L : RawPoint) (hL : history.getLast? = some L) :
    TwitterScraper.intervalChange L.followers t history w = specWindowChange t history w := by
  unfold TwitterScraper.intervalChange specWindowChange
  rw [findIntervalPoint_eq_latest, hL]
  cases h : latestAtOrBefore history (t - w) with
  | none => rfl
  | some p =>
    by_cases hp : p.followers = 0
    · simp [hp]
    · simp [hp, Nat.pos_of_ne_zero hp]

theorem calculate_growth_metrics_eq_spec (t : Int) (history : List RawPoint) :
    TwitterScraper.calculate_growth_metrics t history = specGrowthMetrics t history := by
  cases hL : history.getLast? with
  | none =>
    have : history = [] := by
      cases history with
      | nil => rfl
      | cons a l => simp [List.getLast?_eq_some_iff] at hL
    subst this
    rfl
  | some L =>
    unfold TwitterScraper.calculate_growth_metrics
    rw [hL]
    unfold specGrowthMetrics
    simp only [intervalChange_eq_spec t _ history L hL]

theorem latest_is_latest (history : List RawPoint) (c : Int) (p : RawPoint)
    (hsorted : history.Pairwise (fun a b => a.timestamp ≤ b.timestamp))
    (h : latestAtOrBefore history c = some p) :
    p ∈ history ∧ p.timestamp ≤ c ∧
      ∀ q ∈ history, q.timestamp ≤ c → q.timestamp ≤ p.timestamp := by
  unfold latestAtOrBefore at h
  obtain ⟨ys, hys⟩ := List.getLast?_eq_some_iff.mp h
  have hpmem : p ∈ history.filter (fun q => decide (q.timestamp ≤ c)) := by
    rw [hys]; simp
  have hmf := List.mem_filter.mp hpmem
  refine ⟨hmf.1, of_decide_eq_true hmf.2, ?_⟩
  intro q hq hqc
  have hqf : q ∈ history.filter (fun r => decide (r.timestamp ≤ c)) :=
    List.mem_filter.mpr ⟨hq, decide_eq_true hqc⟩
  rw [hys] at hqf
  rcases List.mem_append.mp hqf with h1 | h2
  · have hpf := (hsorted.filter (fun r => decide (r.timestamp ≤ c)))
    rw [hys, List.pairwise_append] at hpf
    exact hpf.2.2 q h1 p (by simp)
  · simp only [List.mem_singleton] at h2
    rw [h2]

/-- C1: for every timestamp-sorted follower history, the growth-metrics
computation returns, for each of the nine windows, the percent change from the
latest point at or before `now - window` to the most recent point's follower
count (0 when no reference point exists or its follower count is zero); an
empty history yields all-zero metrics; and the derived growth rate always
equals the 1h value. -/
theorem growth_metrics_match_spec (t : Int) (history : List RawPoint)
    (hsorted : history.Pairwise (fun a b => a.timestamp ≤ b.timestamp)) :
    TwitterScraper.calculate_follower_growth t [] = ⟨GrowthMetrics.zero, 0⟩ ∧
    (TwitterScraper.calculate_follower_growth t history).metrics =
      specGrowthMetrics t history ∧
    (TwitterScraper.calculate_follower_growth t history).growth_rate =
      (TwitterScraper.calculate_follower_growth t history).metrics.change_1h ∧
    (TwitterScraper.calculate_follower_growth t history).growth_rate =
      specWindowChange t history (60 * 60) ∧
    (∀ c p, latestAtOrBefore history c = some p →
      p ∈ history ∧ p.timestamp ≤ c ∧
        ∀ q ∈ history, q.timestamp ≤ c → q.timestamp ≤ p.timestamp) := by
  have hsortId : TwitterScraper.sortByTimestamp history = history :=
    List.mergeSort_of_sorted (hsorted.imp (fun hab => decide_eq_true hab))
  have hmain : (TwitterScraper.calculate_follower_growth t history).metrics =
      specGrowthMetrics t history ∧
      (TwitterScraper.calculate_follower_growth t history).growth_rate =
        (TwitterScraper.calculate_follower_growth t history).metrics.change_1h := by
    unfold TwitterScraper.calculate_follower_growth
    by_cases hemp : history.isEmpty
    · have : history = [] := List.isEmpty_iff.mp hemp
      subst this
      simp only [hemp, if_true]
      refine ⟨?_, rfl⟩
      rw [← calculate_growth_metrics_eq_spec]
      rfl
    · simp only [hemp, if_false, hsortId]
      refine ⟨calculate_growth_metrics_eq_spec t history, ?_⟩
      by_cases h1 : (TwitterScraper.calculate_growth_metrics t history).change_1h = 0
      · simp [h1]
      · simp [h1]
  refine ⟨rfl, hmain.1, hmain.2, ?_, fun c p h => latest_is_latest history c p hsorted h⟩
  rw [hmain.2, hmain.1]
  rfl

/-- Witness for C1 at a concrete sorted two-point history. -/
theorem growth_metrics_match_spec_witness :
    ([(⟨0, 100⟩ : RawPoint), ⟨5000, 150⟩].Pairwise
      (fun a b => a.timestamp ≤ b.timestamp)) ∧
    (TwitterScraper.calculate_follower_growth 7200 [⟨0, 100⟩, ⟨5000, 150⟩]).metrics =
      specGrowthMetrics 7200 [⟨0, 100⟩, ⟨5000, 150⟩] :=
  ⟨by decide, (growth_metrics_match_spec 7200 [⟨0, 100⟩, ⟨5000, 150⟩] (by decide)).2.1⟩

/-! ### Spike detector (C7) -/

theorem findOldPoint_eq_latest (c : Int) (l : List RawPoint)
    (hsorted : l.Pairwise (fun a b => a.timestamp ≤ b.timestamp)) :
    TwitterScraper.findOldPoint c l = latestAtOrBefore l c := by
  induction l with
  | nil => rfl
  | cons a l ih =>
    have hs := List.pairwise_cons.mp hsorted
    show (if a.timestamp ≤ c then
        match TwitterScraper.findOldPoint c l with
        | some q => some q
        | none => some a
      else none) =
      (List.filter (fun p => decide (p.timestamp ≤ c)) (a :: l)).getLast?
    rw [List.filter_cons]
    by_cases ha : a.timestamp ≤ c
    · rw [if_pos ha, decide_eq_true ha, if_pos rfl, ih hs.2]
      unfold latestAtOrBefore
      cases hfl : (List.filter (fun p => decide (p.timestamp ≤ c)) l).getLast? with
      | none =>
        rw [List.getLast?_eq_none_iff.mp hfl]
        rfl
      | some q =>
        obtain ⟨ys, hys⟩ := List.getLast?_eq_some_iff.mp hfl
        rw [hys, show a :: (ys ++ [q]) = (a :: ys) ++ [q] from rfl,
          List.getLast?_concat]
    · have hnil : List.filter (fun p => decide (p.timestamp ≤ c)) l = [] := by
        rw [List.filter_eq_nil_iff]
        intro q hq
        simp only [decide_eq_true_eq]
        intro hqc
        exact ha (le_trans (hs.1 q hq) hqc)
      rw [if_neg ha, decide_eq_false ha, if_neg (by simp), hnil]
      rfl

/-- C7: the spike detector selects the last stored point with timestamp at or
before `now - 3600` as reference; it returns (false, 0) when no such point
exists or the reference follower count is 0 — including a point at exactly
`now - 3600` with 0 followers — and otherwise returns the percent change,
spiking exactly when that change is at least 5. -/
theorem spike_detector_matches_spec (t : Int) (history : List RawPoint)
    (cur : Nat) :
    TwitterScraper.detect_follower_spike t history cur = specDetectSpike t history cur ∧
    (latestAtOrBefore (TwitterScraper.sortByTimestamp history) (t - 3600) = none →
      TwitterScraper.detect_follower_spike t history cur = (false, 0)) ∧
    (∀ ref, latestAtOrBefore (TwitterScraper.sortByTimestamp history) (t - 3600) = some ref →
      ref.followers = 0 →
      TwitterScraper.detect_follower_spike t history cur = (false, 0)) ∧
    TwitterScraper.detect_follower_spike t [⟨t - 3600, 0⟩] cur = (false, 0) ∧
    (∀ b pc, TwitterScraper.detect_follower_spike t history cur = (b, pc) →
      (b = true ↔ pc ≥ 5)) := by
  have hsorted : (TwitterScraper.sortByTimestamp history).Pairwise
      (fun a b => a.timestamp ≤ b.timestamp) :=
    pairwise_mergeSort_byKey (fun p => p.timestamp) history
  have hmain : TwitterScraper.detect_follower_spike t history cur =
      specDetectSpike t history cur := by
    unfold TwitterScraper.detect_follower_spike specDetectSpike
      TwitterScraper.SPIKE_THRESHOLD_PERCENT
    by_cases hemp : history.isEmpty
    · have : history = [] := List.isEmpty_iff.mp hemp
      subst this
      simp [TwitterScraper.sortByTimestamp, latestAtOrBefore, List.mergeSort_nil]
    · rw [if_neg hemp]
      dsimp only
      rw [findOldPoint_eq_latest (t - 3600) _ hsorted]
  have hspec : ∀ b pc, specDetectSpike t history cur = (b, pc) → (b = true ↔ pc ≥ 5) := by
    intro b pc h
    unfold specDetectSpike at h
    split at h
    · injection h with hb hpc
      subst hb; subst hpc
      decide
    · split at h
      · injection h with hb hpc
        subst hb; subst hpc
        decide
      · injection h with hb hpc
        subst hb; subst hpc
        simp
  refine ⟨hmain, ?_, ?_, ?_, ?_⟩
  · intro hnone
    rw [hmain]
    unfold specDetectSpike
    rw [hnone]
  · intro ref href hz
    rw [hmain]
    unfold specDetectSpike
    rw [href]
    dsimp only
    rw [if_pos hz]
  · unfold TwitterScraper.detect_follower_spike
    simp [TwitterScraper.sortByTimestamp, List.mergeSort_singleton,
      TwitterScraper.findOldPoint]
  · intro b pc h
    exact hspec b pc (hmain ▸ h)

/-- Witness for C7: a single point exactly one hour old with zero followers
yields (false, 0) even though the current count is positive. -/
theorem spike_detector_matches_spec_witness :
    TwitterScraper.detect_follower_spike 10000 [⟨10000 - 3600, 0⟩] 50 = (false, 0) :=
  (spike_detector_matches_spec 10000 [⟨10000 - 3600, 0⟩] 50).2.2.2.1

/-! ### Growth-status cascade (C3) -/

/-- C3: the growth-status label is assigned by an ordered first-match-wins
threshold cascade, so in particular a 3 percent five-minute change with a flat
one-hour change already labels the subject as spiking. -/
theorem growth_status_cascade (m : GrowthMetrics) :
    (App.determine_growth_status m = App.GrowthStatus.spiking ↔
      (m.change_5m ≥ 2 ∨ m.change_15m ≥ 5 ∨ m.change_30m ≥ 8 ∨ m.change_1h ≥ 10)) ∧
    (App.determine_growth_status m = App.GrowthStatus.fastGrowth ↔
      (¬(m.change_5m ≥ 2 ∨ m.change_15m ≥ 5 ∨ m.change_30m ≥ 8 ∨ m.change_1h ≥ 10) ∧
        m.change_1h ≥ 5)) ∧
    (App.determine_growth_status m = App.GrowthStatus.growing ↔
      (¬(m.change_5m ≥ 2 ∨ m.change_15m ≥ 5 ∨ m.change_30m ≥ 8 ∨ m.change_1h ≥ 10) ∧
        ¬m.change_1h ≥ 5 ∧ m.change_1h > 0)) ∧
    (App.determine_growth_status m = App.GrowthStatus.declining ↔
      (¬(m.change_5m ≥ 2 ∨ m.change_15m ≥ 5 ∨ m.change_30m ≥ 8 ∨ m.change_1h ≥ 10) ∧
        ¬m.change_1h ≥ 5 ∧ ¬m.change_1h > 0 ∧ m.change_1h < 0)) ∧
    (App.determine_growth_status m = App.GrowthStatus.stable ↔
      (¬(m.change_5m ≥ 2 ∨ m.change_15m ≥ 5 ∨ m.change_30m ≥ 8 ∨ m.change_1h ≥ 10) ∧
        ¬m.change_1h ≥ 5 ∧ ¬m.change_1h > 0 ∧ ¬m.change_1h < 0)) ∧
    App.determine_growth_status ⟨3, 0, 0, 0, 0, 0, 0, 0, 0⟩ = App.GrowthStatus.spiking := by
  refine ⟨?_, ?_, ?_, ?_, ?_, by decide⟩ <;>
    · unfold App.determine_growth_status
      split_ifs with h1 h2 h3 h4 <;> simp_all

/-- Witness for C3 at a concrete metrics record with a five-minute spike only. -/
theorem growth_status_cascade_witness :
    App.determine_growth_status ⟨3, 0, 0, 0, 0, 0, 0, 0, 0⟩ = App.GrowthStatus.spiking :=
  (growth_status_cascade ⟨3, 0, 0, 0, 0, 0, 0, 0, 0⟩).2.2.2.2.2

/-! ### History store append contract (C6) -/

/-- C6: after an append, the persisted history for the subject is a
permutation of the previous history plus the new point restricted to the
24-hour retention window, it is sorted by non-decreasing timestamp, every
stored point lies inside the retention window, and other subjects' histories
are unchanged. -/
theorem save_follower_data_contract (t : Int) (username : String) (n : Nat)
    (store : String → List RawPoint) :
    (TwitterScraper.save_follower_data t username n store username).Perm
      ((store username ++ [(⟨t, n⟩ : RawPoint)]).filter
        (fun p : RawPoint => decide (p.timestamp > t - 24 * 60 * 60))) ∧
    (TwitterScraper.save_follower_data t username n store username).Pairwise
      (fun a b => a.timestamp ≤ b.timestamp) ∧
    (∀ p ∈ TwitterScraper.save_follower_data t username n store username,
      t - 24 * 60 * 60 < p.timestamp) ∧
    (∀ u, u ≠ username → TwitterScraper.save_follower_data t username n store u = store u) := by
  have hself : TwitterScraper.save_follower_data t username n store username =
      ((store username ++ [(⟨t, n⟩ : RawPoint)]).filter
        (fun p : RawPoint => decide (p.timestamp > t - 24 * 60 * 60))).mergeSort
        (fun a b => decide (a.timestamp ≤ b.timestamp)) := by
    unfold TwitterScraper.save_follower_data
    rw [if_pos rfl]
  refine ⟨?_, ?_, ?_, ?_⟩
  · rw [hself]
    exact List.mergeSort_perm _ _
  · rw [hself]
    exact pairwise_mergeSort_byKey (fun p : RawPoint => p.timestamp) _
  · intro p hp
    rw [hself] at hp
    have hmem := (List.mergeSort_perm _ _).mem_iff.mp hp
    exact of_decide_eq_true (List.mem_filter.mp hmem).2
  · intro u hu
    unfold TwitterScraper.save_follower_data
    rw [if_neg hu]

/-- Witness for C6: appending to an empty store stores exactly the new point
and leaves another subject's history empty. -/
theorem save_follower_data_contract_witness :
    (∀ p ∈ TwitterScraper.save_follower_data 100000 "a" 5 (fun _ => []) "a",
      100000 - 24 * 60 * 60 < p.timestamp) ∧
    TwitterScraper.save_follower_data 100000 "a" 5 (fun _ => []) "b" = [] :=
  ⟨(save_follower_data_contract 100000 "a" 5 (fun _ => [])).2.2.1,
    (save_follower_data_contract 100000 "a" 5 (fun _ => [])).2.2.2 "b" (by decide)⟩

/-! ### Primary scoring formula (C2) -/

/-- C2: the primary score is exactly the rounded product of the log base
score, the clamped engagement multiplier, the clamped growth multiplier and
the verification bonus; followers 0 and -5 score the same as followers 1,
and growth inputs of 1000 saturate the growth multiplier at 2.0. -/
theorem primary_score_formula (f : Int) (er g1 g24 : ℝ) (v : Bool) :
    App.calculate_twitter_score f er g1 g24 v =
      App.pyRound1 ((Real.logb 10 ((max f 1 : Int) : ℝ) * 10) *
        (max 0.5 (min 1.5 (1 + er * 100))) *
        (max 1.0 (min 2.0 (1 + max g1 0 / 100 + max g24 0 / 200))) *
        (if v then 1.2 else 1.0)) ∧
    App.calculate_twitter_score 0 er g1 g24 v =
      App.calculate_twitter_score 1 er g1 g24 v ∧
    App.calculate_twitter_score (-5) er g1 g24 v =
      App.calculate_twitter_score 1 er g1 g24 v ∧
    App.growth_multiplier 1000 1000 = 2 := by
  refine ⟨rfl, ?_, ?_, ?_⟩
  · unfold App.calculate_twitter_score App.base_score
    norm_num
  · unfold App.calculate_twitter_score App.base_score
    norm_num
  · unfold App.growth_multiplier
    norm_num

/-! ### Live-collection scoring variant (C8) -/

/-- C8: the live scoring variant always returns a value in 0..1000, returns 0
for non-positive follower counts, and clamps its engagement multiplier to the
0.5..2.0 range. -/
theorem live_score_bounded (f : Int) (er : ℝ) (v : Bool) :
    0 ≤ TwitterScraper.calculate_twitter_score_live f er v ∧
    TwitterScraper.calculate_twitter_score_live f er v ≤ 1000 ∧
    (f ≤ 0 → TwitterScraper.calculate_twitter_score_live f er v = 0) ∧
    0.5 ≤ TwitterScraper.engagement_multiplier_live er ∧
    TwitterScraper.engagement_multiplier_live er ≤ 2 := by
  have hem : (0.5 : ℝ) ≤ TwitterScraper.engagement_multiplier_live er ∧
      TwitterScraper.engagement_multiplier_live er ≤ 2 := by
    unfold TwitterScraper.engagement_multiplier_live
    constructor
    · exact le_max_left _ _
    · exact max_le (by norm_num) (le_trans (min_le_left _ _) (by norm_num))
  have hscore : 0 ≤ TwitterScraper.calculate_twitter_score_live f er v ∧
      TwitterScraper.calculate_twitter_score_live f er v ≤ 1000 := by
    unfold TwitterScraper.calculate_twitter_score_live
    by_cases hf : f ≤ 0
    · rw [if_pos hf]
      norm_num
    · rw [if_neg hf]
      constructor
      · exact le_min (by norm_num) (le_max_left _ _)
      · exact min_le_left _ _
  refine ⟨hscore.1, hscore.2, ?_, hem.1, hem.2⟩
  intro hf
  unfold TwitterScraper.calculate_twitter_score_live
  rw [if_pos hf]

/-- Witness for C8: a negative follower count scores 0. -/
theorem live_score_bounded_witness :
    TwitterScraper.calculate_twitter_score_live (-3) 0 false = 0 :=
  (live_score_bounded (-3) 0 false).2.2.1 (by norm_num)

/-! ### Cycle resilience and publish decision (C5) -/

theorem get_twitter_data_fst (tokens : List String)
    (fetchStats : String → Option App.TwitterData) :
    (App.get_twitter_data tokens fetchStats).map Prod.fst =
      tokens.filter (fun u => (fetchStats u).isSome) := by
  induction tokens with
  | nil => rfl
  | cons a tl ih =>
    unfold App.get_twitter_data at *
    rw [List.filterMap_cons, List.filter_cons]
    cases h : fetchStats a with
    | none => simpa [h] using ih
    | some s => simpa [h] using ih

theorem get_twitter_data_nil_iff (tokens : List String)
    (fetchStats : String → Option App.TwitterData) :
    App.get_twitter_data tokens fetchStats = [] ↔
      ∀ u ∈ tokens, fetchStats u = none := by
  unfold App.get_twitter_data
  rw [List.filterMap_eq_nil_iff]
  constructor
  · intro h u hu
    exact Option.map_eq_none'.mp (h u hu)
  · intro h u hu
    rw [h u hu]
    rfl

theorem entry_usernames (td : List (String × App.TwitterData))
    (md : List (String × App.MarketInfo)) :
    (App.leaderboard_entries td md).map (fun e => e.username) = td.map Prod.fst := by
  unfold App.leaderboard_entries
  rw [List.map_map]
  exact List.map_congr_left (fun p _ => rfl)

theorem cycle_none_iff (td : List (String × App.TwitterData))
    (md : List (String × App.MarketInfo)) :
    App.update_leaderboard_cycle td md = none ↔ (td = [] ∨ md = []) := by
  unfold App.update_leaderboard_cycle
  cases td with
  | nil => simp
  | cons a tl =>
    cases md with
    | nil => simp
    | cons b ml => simp

/-- C5 amended: a failed profile fetch excludes only that subject — every
subject whose fetch succeeded appears in the published leaderboard — and the
cycle publishes nothing exactly when no profile fetch succeeds; the market
source cannot cause an abort by itself because failed market fetches yield
zero records instead of removing the token. -/
theorem cycle_partial_resilience (tokens : List String)
    (fetchStats : String → Option App.TwitterData)
    (fetchMarket : String → Option App.MarketInfo) :
    (App.update_leaderboard_cycle (App.get_twitter_data tokens fetchStats)
        (App.get_market_data tokens fetchMarket) = none ↔
      ∀ u ∈ tokens, fetchStats u = none) ∧
    (∀ lb, App.update_leaderboard_cycle (App.get_twitter_data tokens fetchStats)
        (App.get_market_data tokens fetchMarket) = some lb →
      ((lb.map (fun e => e.username)).Perm
        (tokens.filter (fun u => (fetchStats u).isSome)) ∧
       (∀ u ∈ tokens, (fetchStats u).isSome → u ∈ lb.map (fun e => e.username)) ∧
       (∀ u, fetchStats u = none → u ∉ lb.map (fun e => e.username)))) := by
  have hmd : App.get_market_data tokens fetchMarket = [] ↔ tokens = [] := by
    unfold App.get_market_data
    exact List.map_eq_nil_iff
  constructor
  · rw [cycle_none_iff, get_twitter_data_nil_iff, hmd]
    constructor
    · rintro (h | h)
      · exact h
      · subst h
        intro u hu
        exact absurd hu (List.not_mem_nil u)
    · intro h
      exact Or.inl h
  · intro lb h
    have hlb : lb = App.process_leaderboard_data
        (App.get_twitter_data tokens fetchStats)
        (App.get_market_data tokens fetchMarket) := by
      unfold App.update_leaderboard_cycle at h
      split at h
      · exact (Option.some.inj h).symm
      · exact absurd h (by simp)
    have hperm : (lb.map (fun e => e.username)).Perm
        (tokens.filter (fun u => (fetchStats u).isSome)) := by
      rw [hlb]
      unfold App.process_leaderboard_data
      have h1 := (List.mergeSort_perm
        (App.leaderboard_entries (App.get_twitter_data tokens fetchStats)
          (App.get_market_data tokens fetchMarket))
        (fun a b => decide (b.twitter_score ≤ a.twitter_score))).map
        (fun e => e.username)
      rw [entry_usernames, get_twitter_data_fst] at h1
      exact h1
    refine ⟨hperm, ?_, ?_⟩
    · intro u hu hsome
      exact hperm.mem_iff.mpr (List.mem_filter.mpr ⟨hu, hsome⟩)
    · intro u hnone hmem
      have := (List.mem_filter.mp (hperm.mem_iff.mp hmem)).2
      rw [hnone] at this
      exact Bool.false_ne_true this

/-- Witness for C5 at concrete inputs: with every profile fetch failing the
cycle publishes nothing. -/
theorem cycle_partial_resilience_witness :
    App.update_leaderboard_cycle (App.get_twitter_data ["a"] (fun _ => none))
      (App.get_market_data ["a"] (fun _ => none)) = none :=
  (cycle_partial_resilience ["a"] (fun _ => none) (fun _ => none)).1.mpr
    (fun _ _ => rfl)

/-- C5 counterexample: one subject whose profile fetch fails while the market
source succeeds for every token — the cycle publishes nothing even though only
one of the two data sources failed, refuting the claim that an abort happens
only when both data sources fail entirely. -/
theorem cycle_abort_single_source :
    App.update_leaderboard_cycle (App.get_twitter_data ["bitcoin"] (fun _ => none))
      (App.get_market_data ["bitcoin"] (fun _ => some ⟨1, 2, 3⟩)) = none ∧
    App.get_market_data ["bitcoin"] (fun _ => some ⟨1, 2, 3⟩) =
      [("bitcoin", ⟨1, 2, 3⟩)] := by
  exact ⟨rfl, rfl⟩

/-! ### The two leaderboard orderings (C9) -/

theorem tupleLe_trans {x y z : Bool × ℚ × ℤ} (hxy : App.tupleLe x y)
    (hyz : App.tupleLe y z) : App.tupleLe x z := by
  rcases hxy with h1 | ⟨e1, h1'⟩
  · rcases hyz with h2 | ⟨e2, _⟩
    · exact Or.inl (lt_trans h1 h2)
    · exact Or.inl (e2 ▸ h1)
  · rcases hyz with h2 | ⟨e2, h2'⟩
    · exact Or.inl (e1 ▸ h2)
    · refine Or.inr ⟨e1.trans e2, ?_⟩
      rcases h1' with hq1 | ⟨eq1, hz1⟩
      · rcases h2' with hq2 | ⟨eq2, _⟩
        · exact Or.inl (lt_trans hq1 hq2)
        · exact Or.inl (eq2 ▸ hq1)
      · rcases h2' with hq2 | ⟨eq2, hz2⟩
        · exact Or.inl (eq1 ▸ hq2)
        · exact Or.inr ⟨eq1.trans eq2, le_trans hz1 hz2⟩

theorem tupleLe_total (x y : Bool × ℚ × ℤ) : App.tupleLe x y ∨ App.tupleLe y x := by
  rcases lt_trichotomy x.1 y.1 with h | h | h
  · exact Or.inl (Or.inl h)
  · rcases lt_trichotomy x.2.1 y.2.1 with hq | hq | hq
    · exact Or.inl (Or.inr ⟨h, Or.inl hq⟩)
    · rcases le_total x.2.2 y.2.2 with hz | hz
      · exact Or.inl (Or.inr ⟨h, Or.inr ⟨hq, hz⟩⟩)
      · exact Or.inr (Or.inr ⟨h.symm, Or.inr ⟨hq.symm, hz⟩⟩)
    · exact Or.inr (Or.inr ⟨h.symm, Or.inl hq⟩)
  · exact Or.inr (Or.inl h)

theorem tupleDesc_trans : ∀ a b c : App.TokenData,
    decide (App.tupleLe (App.tokenKey b) (App.tokenKey a)) = true →
    decide (App.tupleLe (App.tokenKey c) (App.tokenKey b)) = true →
    decide (App.tupleLe (App.tokenKey c) (App.tokenKey a)) = true := by
  intro a b c hab hbc
  simp only [decide_eq_true_eq] at *
  exact tupleLe_trans hbc hab

theorem tupleDesc_total : ∀ a b : App.TokenData,
    (decide (App.tupleLe (App.tokenKey b) (App.tokenKey a)) ||
      decide (App.tupleLe (App.tokenKey a) (App.tokenKey b))) = true := by
  intro a b
  rcases tupleLe_total (App.tokenKey b) (App.tokenKey a) with h | h <;> simp [h]

/-- C9: both leaderboard orderings exist as separate code paths and each
produces its own sorted output — the primary serving path emits entries in
non-increasing twitter-score order, while the live-collection path emits its
records in non-increasing lexicographic order of
(is_spiking, pct_change_1h, twitter_score); each output is a permutation of
its own path's input records. -/
theorem leaderboard_two_orderings (td : List (String × App.TwitterData))
    (md : List (String × App.MarketInfo)) (scraped : List (Option App.TokenData)) :
    (App.process_leaderboard_data td md).Pairwise
      (fun a b => b.twitter_score ≤ a.twitter_score) ∧
    (App.process_leaderboard_data td md).Perm (App.leaderboard_entries td md) ∧
    (App.generate_leaderboard scraped).Pairwise
      (fun a b => App.tupleLe (App.tokenKey b) (App.tokenKey a)) ∧
    (App.generate_leaderboard scraped).Perm (scraped.filterMap id) := by
  refine ⟨?_, ?_, ?_, ?_⟩
  · unfold App.process_leaderboard_data
    exact pairwise_mergeSort_byKeyDesc (fun e : App.Entry => e.twitter_score) _
  · exact List.mergeSort_perm _ _
  · unfold App.generate_leaderboard
    exact (@List.sorted_mergeSort App.TokenData
      (fun a b => decide (App.tupleLe (App.tokenKey b) (App.tokenKey a)))
      tupleDesc_trans tupleDesc_total (scraped.filterMap id)).imp of_decide_eq_true
  · exact List.mergeSort_perm _ _

/-! ### Database store lemmas (C4, C10) -/

theorem import_file_eq (now : String) (file : DB.JsonData) (db : DB.DBState) :
    DB.import_file now file db =
      DB.import_entries now (DB.extract_stats_list file) db := rfl

theorem import_entries_cons (now : String) (s : DB.Stats) (es : List DB.Stats)
    (db : DB.DBState) :
    DB.import_entries now (s :: es) db = DB.import_entries now es
      (if s.username = "" then db
       else (DB.save_twitter_stats now (DB.normalize_stats s) db).2) := rfl

theorem save_metrics_len (now : String) (s : DB.Stats) (db : DB.DBState)
    (hs : s.username ≠ "") :
    (DB.save_twitter_stats now s db).2.metrics.length = db.metrics.length + 1 := by
  unfold DB.save_twitter_stats
  rw [if_neg hs]
  dsimp only
  rw [List.length_append]
  rfl

theorem save_usernames_cases (now : String) (s : DB.Stats) (db : DB.DBState)
    (hs : s.username ≠ "") :
    (DB.usernames (DB.save_twitter_stats now s db).2 = DB.usernames db ∧
      s.username ∈ DB.usernames db) ∨
    (DB.usernames (DB.save_twitter_stats now s db).2 =
      DB.usernames db ++ [s.username] ∧ s.username ∉ DB.usernames db) := by
  unfold DB.save_twitter_stats
  rw [if_neg hs]
  dsimp only
  cases hf : db.users.find? (fun u => u.username = s.username) with
  | some u =>
    left
    constructor
    · unfold DB.usernames
      dsimp only
      rw [List.map_map]
      refine List.map_congr_left ?_
      intro v _
      by_cases hid : v.id = u.id <;> simp [hid]
    · have hmem := List.mem_of_find?_eq_some hf
      have hdec := List.find?_some hf
      have huser : u.username = s.username := of_decide_eq_true hdec
      exact huser ▸ List.mem_map_of_mem (fun x => x.username) hmem
  | none =>
    right
    constructor
    · unfold DB.usernames
      dsimp only
      rw [List.map_append]
      rfl
    · intro hmem
      obtain ⟨x, hx, hxu⟩ := List.mem_map.mp hmem
      have hne := List.find?_eq_none.mp hf x hx
      simp [hxu] at hne

theorem import_usernames_extend (now : String) (es : List DB.Stats)
    (db : DB.DBState) :
    ∃ xs, DB.usernames (DB.import_entries now es db) = DB.usernames db ++ xs := by
  induction es generalizing db with
  | nil => exact ⟨[], (List.append_nil _).symm⟩
  | cons s es ih =>
    rw [import_entries_cons]
    by_cases hs : s.username = ""
    · rw [if_pos hs]
      exact ih db
    · rw [if_neg hs]
      obtain ⟨xs, hxs⟩ := ih ((DB.save_twitter_stats now (DB.normalize_stats s) db).2)
      rcases save_usernames_cases now (DB.normalize_stats s) db hs with ⟨heq, _⟩ | ⟨heq, _⟩
      · exact ⟨xs, by rw [hxs, heq]⟩
      · refine ⟨s.username :: xs, ?_⟩
        rw [hxs, heq, List.append_assoc]
        rfl

theorem import_valid_mem (now : String) (es : List DB.Stats) (db : DB.DBState) :
    ∀ s ∈ es, s.username ≠ "" →
      s.username ∈ DB.usernames (DB.import_entries now es db) := by
  induction es generalizing db with
  | nil =>
    intro s hs
    exact absurd hs (List.not_mem_nil s)
  | cons a es ih =>
    intro s hs hvalid
    rw [import_entries_cons]
    rcases List.mem_cons.mp hs with heq | hmem
    · subst heq
      rw [if_neg hvalid]
      have hin : s.username ∈
          DB.usernames (DB.save_twitter_stats now (DB.normalize_stats s) db).2 := by
        rcases save_usernames_cases now (DB.normalize_stats s) db hvalid with
          ⟨heq', hmem'⟩ | ⟨heq', _⟩
        · rw [heq']
          exact hmem'
        · rw [heq']
          exact List.mem_append.mpr (Or.inr (List.mem_singleton.mpr rfl))
      obtain ⟨xs, hxs⟩ := import_usernames_extend now es
        ((DB.save_twitter_stats now (DB.normalize_stats s) db).2)
      rw [hxs]
      exact List.mem_append.mpr (Or.inl hin)
    · by_cases ha : a.username = ""
      · rw [if_pos ha]
        exact ih db s hmem hvalid
      · rw [if_neg ha]
        exact ih _ s hmem hvalid

theorem import_nodup (now : String) (es : List DB.Stats) (db : DB.DBState)
    (h : (DB.usernames db).Nodup) :
    (DB.usernames (DB.import_entries now es db)).Nodup := by
  induction es generalizing db with
  | nil => exact h
  | cons a es ih =>
    rw [import_entries_cons]
    by_cases ha : a.username = ""
    · rw [if_pos ha]
      exact ih db h
    · rw [if_neg ha]
      apply ih
      rcases save_usernames_cases now (DB.normalize_stats a) db ha with
        ⟨heq, _⟩ | ⟨heq, hnot⟩
      · rw [heq]
        exact h
      · rw [heq, List.nodup_append]
        refine ⟨h, List.nodup_singleton _, ?_⟩
        intro x hx hx1
        rw [List.mem_singleton] at hx1
        subst hx1
        exact hnot hx

theorem import_no_new (now : String) (es : List DB.Stats) (db : DB.DBState)
    (h : ∀ s ∈ es, s.username ≠ "" → s.username ∈ DB.usernames db) :
    DB.usernames (DB.import_entries now es db) = DB.usernames db := by
  induction es generalizing db with
  | nil => rfl
  | cons a es ih =>
    rw [import_entries_cons]
    by_cases ha : a.username = ""
    · rw [if_pos ha]
      exact ih db (fun s hs => h s (List.mem_cons_of_mem a hs))
    · rw [if_neg ha]
      rcases save_usernames_cases now (DB.normalize_stats a) db ha with
        ⟨heq, _⟩ | ⟨heq, hnot⟩
      · rw [ih _ ?_, heq]
        intro s hs hv
        rw [heq]
        exact h s (List.mem_cons_of_mem a hs) hv
      · exact absurd (h a (List.mem_cons_self a es) ha) hnot

theorem import_metrics_len (now : String) (es : List DB.Stats) (db : DB.DBState) :
    (DB.import_entries now es db).metrics.length =
      db.metrics.length + es.countP (fun s => decide (s.username ≠ "")) := by
  induction es generalizing db with
  | nil => rfl
  | cons a es ih =>
    rw [import_entries_cons, List.countP_cons]
    by_cases ha : a.username = ""
    · rw [if_pos ha, ih db]
      simp [ha]
    · rw [if_neg ha, ih _, save_metrics_len now (DB.normalize_stats a) db ha]
      have hc : (decide (a.username ≠ "")) = true := by simp [ha]
      rw [hc, if_pos rfl]
      omega

/-- C4 counterexample: importing the same one-entry snapshot file twice leaves
two metrics rows where a single import leaves one, so the store state after the
second import differs from the state after the first. -/
theorem import_twice_not_idempotent :
    (DB.import_file "t" DB.sampleFile
      (DB.import_file "t" DB.sampleFile DB.emptyDB)).metrics.length = 2 ∧
    (DB.import_file "t" DB.sampleFile DB.emptyDB).metrics.length = 1 ∧
    DB.import_file "t" DB.sampleFile (DB.import_file "t" DB.sampleFile DB.emptyDB) ≠
      DB.import_file "t" DB.sampleFile DB.emptyDB := by
  refine ⟨by decide, by decide, ?_⟩
  intro h
  have h2 := congrArg (fun d : DB.DBState => d.metrics.length) h
  revert h2
  decide

/-- C4 amended: importing the same snapshot file twice creates no duplicate
subject records — the username column after the second import equals the one
after the first, and username uniqueness is preserved — but metrics rows are
double-counted: each import appends one fresh metrics row per valid entry. -/
theorem import_twice_users_stable (now : String) (file : DB.JsonData)
    (db : DB.DBState) :
    DB.usernames (DB.import_file now file (DB.import_file now file db)) =
      DB.usernames (DB.import_file now file db) ∧
    ((DB.usernames db).Nodup →
      (DB.usernames (DB.import_file now file db)).Nodup) ∧
    (DB.import_file now file db).metrics.length =
      db.metrics.length + DB.validCount file ∧
    (DB.import_file now file (DB.import_file now file db)).metrics.length =
      db.metrics.length + 2 * DB.validCount file := by
  simp only [import_file_eq]
  refine ⟨?_, ?_, ?_, ?_⟩
  · exact import_no_new now (DB.extract_stats_list file) _
      (fun s hs hv => import_valid_mem now (DB.extract_stats_list file) db s hs hv)
  · intro hnd
    exact import_nodup now (DB.extract_stats_list file) db hnd
  · exact import_metrics_len now (DB.extract_stats_list file) db
  · rw [import_metrics_len, import_metrics_len]
    unfold DB.validCount
    omega

/-- Witness for C4's amended statement at the concrete one-entry file. -/
theorem import_twice_users_stable_witness :
    DB.usernames (DB.import_file "t" DB.sampleFile
      (DB.import_file "t" DB.sampleFile DB.emptyDB)) =
      DB.usernames (DB.import_file "t" DB.sampleFile DB.emptyDB) ∧
    (DB.usernames (DB.import_file "t" DB.sampleFile DB.emptyDB)).Nodup :=
  ⟨(import_twice_users_stable "t" DB.sampleFile DB.emptyDB).1,
    (import_twice_users_stable "t" DB.sampleFile DB.emptyDB).2.1 (by decide)⟩

/-- C10: the stats write is total (never raises); it succeeds exactly when the
username is present, appending exactly one metrics row and upserting exactly
one user row carrying the new bio, location and verified fields; on failure it
returns false and leaves the database unchanged. -/
theorem save_stats_contract (now : String) (stats : DB.Stats) (db : DB.DBState) :
    ((DB.save_twitter_stats now stats db).1 = true ↔ stats.username ≠ "") ∧
    ((DB.save_twitter_stats now stats db).1 = false →
      (DB.save_twitter_stats now stats db).2 = db) ∧
    (stats.username ≠ "" →
      (∃ m, (DB.save_twitter_stats now stats db).2.metrics = db.metrics ++ [m]) ∧
      (DB.save_twitter_stats now stats db).2.users.length =
        (if stats.username ∈ DB.usernames db then db.users.length
         else db.users.length + 1) ∧
      (∃ u ∈ (DB.save_twitter_stats now stats db).2.users,
        u.username = stats.username ∧ u.bio = stats.bio ∧
        u.location = stats.location ∧ u.verified = stats.verified)) := by
  by_cases h : stats.username = ""
  · unfold DB.save_twitter_stats
    rw [if_pos h]
    refine ⟨by simp [h], fun _ => rfl, fun hv => absurd h hv⟩
  · have h1 : (DB.save_twitter_stats now stats db).1 = true := by
      unfold DB.save_twitter_stats
      rw [if_neg h]
    refine ⟨by simp [h1, h], by simp [h1], fun _ => ⟨?_, ?_, ?_⟩⟩
    · unfold DB.save_twitter_stats
      rw [if_neg h]
      dsimp only
      exact ⟨_, rfl⟩
    · unfold DB.save_twitter_stats
      rw [if_neg h]
      dsimp only
      cases hf : db.users.find? (fun u => u.username = stats.username) with
      | some u =>
        have hmem : stats.username ∈ DB.usernames db := by
          have := List.mem_of_find?_eq_some hf
          have hdec := List.find?_some hf
          have hu : u.username = stats.username := of_decide_eq_true hdec
          exact hu ▸ List.mem_map_of_mem (fun x => x.username) this
        rw [if_pos hmem]
        dsimp only
        rw [List.length_map]
      | none =>
        have hmem : stats.username ∉ DB.usernames db := by
          intro hmem
          obtain ⟨x, hx, hxu⟩ := List.mem_map.mp hmem
          have hne := List.find?_eq_none.mp hf x hx
          simp [hxu] at hne
        rw [if_neg hmem]
        dsimp only
        rw [List.length_append]
        rfl
    · unfold DB.save_twitter_stats
      rw [if_neg h]
      dsimp only
      cases hf : db.users.find? (fun u => u.username = stats.username) with
      | some u =>
        have humem := List.mem_of_find?_eq_some hf
        have hdec := List.find?_some hf
        have hu : u.username = stats.username := of_decide_eq_true hdec
        refine ⟨{ u with bio := stats.bio, location := stats.location, verified := stats.verified, created_at := stats.created_at }, ?_, ?_⟩
        · dsimp only
          refine List.mem_map.mpr ⟨u, humem, ?_⟩
          simp
        · exact ⟨hu, rfl, rfl, rfl⟩
      | none =>
        refine ⟨⟨db.next_user_id, stats.username, stats.bio, stats.location, stats.verified, stats.created_at⟩, ?_, rfl, rfl, rfl, rfl⟩
        dsimp only
        exact List.mem_append.mpr (Or.inr (List.mem_singleton.mpr rfl))

/-- Witness for C10 at a concrete stats record and the empty database. -/
theorem save_stats_contract_witness :
    (DB.save_twitter_stats "t" DB.sampleStats DB.emptyDB).1 = true ∧
    (∃ m, (DB.save_twitter_stats "t" DB.sampleStats DB.emptyDB).2.metrics =
      DB.emptyDB.metrics ++ [m]) :=
  ⟨(save_stats_contract "t" DB.sampleStats DB.emptyDB).1.mpr (by decide),
    ((save_stats_contract "t" DB.sampleStats DB.emptyDB).2.2 (by decide)).1⟩

end CryptoBot
